import Mathlib

/-!
Shallow embedding of the pimaster2ardslave Arduino firmware (i2cSlave.ino).

The firmware's global state (pin assignment table, pin value store, analog
auto-range window, counters, and the two 2-slot byte queues) is modelled as a
`MachineState` record.  The two AVR `float` globals `analogMin`/`analogMax` are
modelled over `ℚ`; C float-to-int conversion is modelled as truncation toward
zero (`ratToIntTrunc`).  Physical side effects (`pinMode`, `digitalWrite`) are
recorded as an explicit list of `Action`s; physical inputs (`digitalRead`,
`analogRead`) are supplied by an `Env`.  The `ArduinoQueue<byte>(2)` instances
are modelled as lists with a capacity-2 `enqueue` that drops on overflow,
matching the library's `enqueue` returning `false` when full.
-/

namespace I2cSlave

/-! ### Constants from the source -/

def UNDEFINED_ERROR        : Int := 255
def UNRECOGNISED_COMMAND   : Int := 254
def TOO_MUCH_DATA          : Int := 253
def PIN_ASSIGNED_AS_INPUT  : Int := 252
def PIN_ASSIGNED_AS_OUTPUT : Int := 251
def PIN_UNASSIGNED         : Int := 250
def EMPTY_QUEUE            : Int := 249
def INIT_VALUE             : Int := 0

def PIN_INPUT_DIGITAL        : Int := 2
def PIN_OUTPUT               : Int := 3
def PIN_INPUT_DIGITAL_PULLUP : Int := 4
def PIN_INPUT_ANALOG         : Int := 5
def PIN_UNUSED               : Int := 6

def CMD_ECHO_INPUT              : Int := 224
def CMD_CLEAR_REQUEST_COUNT     : Int := 225
def CMD_RETURN_REQUEST_COUNT    : Int := 226
def CMD_CLEAR_LOOP_COUNT        : Int := 227
def CMD_RETURN_LOOP_COUNT       : Int := 228
def CMD_CLEAR_QUEUES            : Int := 229
def CMD_RETURN_ANALOG_MIN_RANGE : Int := 230
def CMD_RETURN_ANALOG_MAX_RANGE : Int := 231
def CMD_DISABLE_AUTORANGE       : Int := 232
def CMD_ENABLE_AUTORANGE        : Int := 233

/-- Model of `int pinsAssigned = 10;` — the loop bound used by the scan and reset
    routines (never reassigned in the source). -/
def pinsAssigned : Nat := 10

/-- Model of `float analogMinDefault = 70.0;` -/
def analogMinDefault : ℚ := 70

/-- Model of `float analogMaxDefault = 600.0;` -/
def analogMaxDefault : ℚ := 600

/-! ### Machine model -/

/-- A recorded physical side effect: `pinMode` or `digitalWrite`.
    For `writePin`, `true` is HIGH and `false` is LOW. -/
inductive Action where
  | setModeInput       (pin : Nat)
  | setModeInputPullup (pin : Nat)
  | setModeOutput      (pin : Nat)
  | writePin           (pin : Nat) (high : Bool)
deriving DecidableEq, Repr

/-- The physical inputs: `digitalRead` and `analogRead` results per pin. -/
structure Env where
  digitalIn : Nat → Int
  analogIn  : Nat → Int

/-- The firmware's mutable global state. -/
structure MachineState where
  pinAssignments : Nat → Int
  pinValues      : Nat → Int
  analogMin      : ℚ
  analogMax      : ℚ
  isAutoRange    : Bool
  isConstrainAnalogValue : Bool
  isEchoTest     : Bool
  loopCount      : Int
  requestCount   : Int
  inputQueue     : List Nat
  outputQueue    : List Nat

/-! ### Byte and numeric helpers -/

/-- Capacity-2 queue insertion: `ArduinoQueue(2).enqueue` silently does
    nothing when the queue is full. -/
def enqueue (q : List Nat) (b : Nat) : List Nat :=
  if q.length < 2 then q ++ [b] else q

/-- Arduino `lowByte` of a (16-bit) int value. -/
def lowByte (d : Int) : Nat := (d.emod 256).toNat

/-- Arduino `highByte` of a (16-bit) int value: the two's-complement bit
    pattern's upper byte. -/
def highByte (d : Int) : Nat := ((d.emod 65536) / 256).toNat

/-- Reinterpret a bit pattern below 2^16 as a signed 16-bit AVR `int`. -/
def toInt16 (n : Nat) : Int :=
  let m := n % 65536
  if m < 32768 then (m : Int) else (m : Int) - 65536

/-- Truncate the low 16 bits of a `long` into a signed 16-bit `int`,
    as the AVR `long → int` conversion does. -/
def wrap16 (n : Int) : Int := toInt16 (n.emod 65536).toNat

/-- C float-to-int conversion: truncation toward zero.  For the exact
    rational `num/den` (with `den > 0`) this is the T-division of the
    numerator by the denominator. -/
def ratToIntTrunc (q : ℚ) : Int :=
  q.num.tdiv q.den

/-- The Arduino `constrain(amt, low, high)` macro. -/
def arduinoConstrain (amt low high : ℚ) : ℚ :=
  if amt < low then low else if amt > high then high else amt

/-- Model of `boolean inRange(int value, int minimum, int maximum)`:
    inclusive of the minimum, exclusive of the maximum. -/
def inRange (value minimum maximum : Int) : Bool :=
  decide (minimum ≤ value ∧ value < maximum)

/-! ### Pin value rendering and range tracking -/

/-- Model of `int constrainAnalogValue(int value)`:
    `constrain(((value - analogMin) / (analogMax)) * 255.0, 0, 255)`,
    returned through the C float-to-int conversion. -/
def constrainAnalogValue (s : MachineState) (value : Int) : Int :=
  ratToIntTrunc
    (arduinoConstrain (((value : ℚ) - s.analogMin) / s.analogMax * 255) 0 255)

/-- Model of `int getValueOf(int pin)`. -/
def getValueOf (s : MachineState) (pin : Nat) : Int :=
  if s.pinAssignments pin = PIN_INPUT_DIGITAL
      ∨ s.pinAssignments pin = PIN_INPUT_DIGITAL_PULLUP then
    s.pinValues pin
  else if s.pinAssignments pin = PIN_INPUT_ANALOG then
    if s.isConstrainAnalogValue then
      constrainAnalogValue s (s.pinValues pin)
    else
      s.pinValues pin
  else if s.pinAssignments pin = PIN_UNUSED then
    PIN_UNASSIGNED
  else
    PIN_ASSIGNED_AS_OUTPUT

/-- Model of `void adjustAutoRange(int rawAnalogValue)`. -/
def adjustAutoRange (s : MachineState) (rawAnalogValue : Int) : MachineState :=
  if s.isAutoRange then
    { s with analogMin := min s.analogMin (rawAnalogValue : ℚ),
             analogMax := max s.analogMax (rawAnalogValue : ℚ) }
  else s

/-- Model of `void resetRange()`. -/
def resetRange (s : MachineState) : MachineState :=
  { s with analogMin := analogMinDefault, analogMax := analogMaxDefault }

/-- Model of `void setPinAssignment(int pin, int assignment)`: records the assignment
    and emits the corresponding `pinMode` call. -/
def setPinAssignment (s : MachineState) (pin : Nat) (assignment : Int) :
    MachineState × List Action :=
  let s' := { s with pinAssignments := Function.update s.pinAssignments pin assignment }
  let acts :=
    if assignment = PIN_INPUT_ANALOG then [Action.setModeInput pin]
    else if assignment = PIN_INPUT_DIGITAL then [Action.setModeInput pin]
    else if assignment = PIN_INPUT_DIGITAL_PULLUP then [Action.setModeInputPullup pin]
    else if assignment = PIN_OUTPUT then [Action.setModeOutput pin]
    else if assignment = PIN_UNUSED then [Action.setModeInput pin]
    else []
  (s', acts)

/-! ### Command dispatch -/

/-- Model of `int handleCommand(int data)`: returns the updated state, the 16-bit
    reply value, and the physical actions performed. -/
def handleCommand (s : MachineState) (data : Int) :
    MachineState × Int × List Action :=
  if 0 ≤ data ∧ data < 32 then
    (s, getValueOf s data.toNat, [])
  else if inRange data 32 64 then
    let pin := data - 32
    let r := setPinAssignment s pin.toNat PIN_INPUT_DIGITAL
    (r.1, pin, r.2)
  else if inRange data 64 96 then
    let pin := data - 64
    let r := setPinAssignment s pin.toNat PIN_INPUT_DIGITAL_PULLUP
    (r.1, pin, r.2)
  else if inRange data 96 128 then
    let pin := data - 96
    let r := setPinAssignment s pin.toNat PIN_INPUT_ANALOG
    (r.1, pin, r.2)
  else if inRange data 128 160 then
    let pin := data - 128
    let r := setPinAssignment s pin.toNat PIN_OUTPUT
    (r.1, pin, r.2)
  else if inRange data 160 192 then
    let pin := data - 160
    (s, 0, [Action.writePin pin.toNat false])
  else if inRange data 192 224 then
    let pin := data - 192
    (s, 1, [Action.writePin pin.toNat true])
  else if data = CMD_ECHO_INPUT then
    (s, data, [])
  else if data = CMD_CLEAR_REQUEST_COUNT then
    ({ s with requestCount := 0 }, 0, [])
  else if data = CMD_RETURN_REQUEST_COUNT then
    (s, wrap16 s.requestCount, [])
  else if data = CMD_CLEAR_LOOP_COUNT then
    ({ s with loopCount := 0 }, 0, [])
  else if data = CMD_RETURN_LOOP_COUNT then
    (s, wrap16 s.loopCount, [])
  else if data = CMD_CLEAR_QUEUES then
    ({ s with inputQueue := [], outputQueue := [] }, 0, [])
  else if data = CMD_RETURN_ANALOG_MIN_RANGE then
    (s, ratToIntTrunc s.analogMin, [])
  else if data = CMD_RETURN_ANALOG_MAX_RANGE then
    (s, ratToIntTrunc s.analogMax, [])
  else if data = CMD_DISABLE_AUTORANGE then
    (resetRange { s with isAutoRange := false }, 0, [])
  else if data = CMD_ENABLE_AUTORANGE then
    (resetRange { s with isAutoRange := true }, 1, [])
  else if 240 ≤ data then
    (s, data, [])
  else
    (s, UNRECOGNISED_COMMAND, [])

/-! ### Transaction byte assembler (receive / request handlers) -/

/-- Model of `void queueForOutput(int data)`: enqueues low byte then high byte. -/
def queueForOutput (q : List Nat) (data : Int) : List Nat :=
  enqueue (enqueue q (lowByte data)) (highByte data)

/-- Model of `void requestData()`: synthesizes `EMPTY_QUEUE` when the output queue is
    empty, then drains the whole queue onto the wire.  Returns the updated
    state and the bytes written, in transmission order. -/
def requestData (s : MachineState) : MachineState × List Nat :=
  let q := if s.outputQueue.isEmpty then queueForOutput s.outputQueue EMPTY_QUEUE
           else s.outputQueue
  ({ s with outputQueue := [] }, q)

/-- The per-byte body of `receiveData`'s loop: each inbound byte is enqueued
    into both the input queue and the output queue. -/
def receiveBytes (s : MachineState) (bytes : List Nat) : MachineState :=
  bytes.foldl
    (fun st b =>
      { st with inputQueue := enqueue st.inputQueue b,
                outputQueue := enqueue st.outputQueue b })
    s

/-- Model of `void receiveData(int byteCount)`: buffers the inbound bytes; once the
    input cache holds 2 bytes, assembles the little-endian command word,
    dispatches it (or echoes in echo-test mode), and replaces the output
    queue with the 2-byte reply. -/
def receiveData (s : MachineState) (bytes : List Nat) :
    MachineState × List Action :=
  let s1 := receiveBytes s bytes
  if s1.inputQueue.length = 2 then
    let loByte := s1.inputQueue.headD 0
    let hiByte := (s1.inputQueue.drop 1).headD 0
    let s2 := { s1 with inputQueue := [], requestCount := s1.requestCount + 1 }
    let inputData : Int := toInt16 (loByte ||| (hiByte <<< 8))
    let r := if s2.isEchoTest then (s2, inputData, ([] : List Action))
             else handleCommand s2 inputData
    ({ r.1 with outputQueue := queueForOutput [] r.2.1 }, r.2.2)
  else
    (s1, [])

/-! ### Polling loop -/

/-- The body of `readPinAssignments`'s `for` loop for one pin index,
    threading the state and the accumulated physical actions. -/
def pollOnePin (env : Env) (x : MachineState × List Action) (pin : Nat) :
    MachineState × List Action :=
  let s := x.1
  let pinType := s.pinAssignments pin
  if pinType = PIN_INPUT_DIGITAL then
    ({ s with pinValues := Function.update s.pinValues pin (env.digitalIn pin) }, x.2)
  else if pinType = PIN_INPUT_ANALOG then
    let analogValue := env.analogIn pin
    let s' := adjustAutoRange s analogValue
    ({ s' with pinValues := Function.update s'.pinValues pin analogValue }, x.2)
  else if pinType = PIN_INPUT_DIGITAL_PULLUP then
    ({ s with pinValues :=
        Function.update s.pinValues pin (if env.digitalIn pin = 0 then 1 else 0) }, x.2)
  else if pinType = PIN_OUTPUT then
    (s, x.2 ++ [Action.writePin pin (decide (s.pinValues pin ≠ 0))])
  else
    (s, x.2)

/-- Model of `void readPinAssignments()`: one scan over pins `0 .. pinsAssigned-1`. -/
def readPinAssignments (env : Env) (s : MachineState) :
    MachineState × List Action :=
  (List.range pinsAssigned).foldl (pollOnePin env) (s, [])

/-- Model of `void loop()`: one scan followed by `loopCount += 1`. -/
def loopStep (env : Env) (s : MachineState) : MachineState × List Action :=
  let r := readPinAssignments env s
  ({ r.1 with loopCount := r.1.loopCount + 1 }, r.2)

/-! ### Startup -/

/-- The state of the C++ globals before `setup()` runs: both 32-slot arrays
    are zero-initialized (`int pinAssignments[32] = {};`), the flags and the
    analog range hold their initializers, both queues are empty. -/
def initialGlobals : MachineState where
  pinAssignments := fun _ => 0
  pinValues      := fun _ => 0
  analogMin      := analogMinDefault
  analogMax      := analogMaxDefault
  isAutoRange    := false
  isConstrainAnalogValue := true
  isEchoTest     := false
  loopCount      := 0
  requestCount   := 0
  inputQueue     := []
  outputQueue    := []

/-- Model of `void resetPinAssignments()`: sets slots `0 .. pinsAssigned-1` to
    `PIN_UNUSED`. -/
def resetPinAssignments (s : MachineState) : MachineState :=
  let f := (List.range pinsAssigned).foldl
    (fun f i => Function.update f i PIN_UNUSED) s.pinAssignments
  { s with pinAssignments := f }

/-- Model of `void resetPinValues()`: sets slots `0 .. pinsAssigned-1` to
    `INIT_VALUE`. -/
def resetPinValues (s : MachineState) : MachineState :=
  let f := (List.range pinsAssigned).foldl
    (fun f i => Function.update f i INIT_VALUE) s.pinValues
  { s with pinValues := f }

/-- The state right after `setup()` has run (the I²C registration and the
    ready blink have no effect on the modelled state). -/
def startupState : MachineState :=
  resetPinValues (resetPinAssignments initialGlobals)

/-! ### Spec-side formulas (for refinement comparison only) -/

/-- The constraint formula as §4.3 of the spec words it:
    `clamp(((value - min) / max) * 255, 0, 255)` — divisor is the raw `max`. -/
def constrainFormulaSpec (value minV maxV : ℚ) : ℚ :=
  arduinoConstrain ((value - minV) / maxV * 255) 0 255

/-- The rejected alternative the spec warns about: the same formula with the
    span `max - min` as divisor. -/
def constrainFormulaSpan (value minV maxV : ℚ) : ℚ :=
  arduinoConstrain ((value - minV) / (maxV - minV) * 255) 0 255

/-! ### Derived poll/witness definitions -/

/-- A concrete state for witnesses: pin 0 DigitalInput, pin 1 pullup,
    pin 2 AnalogInput, pin 4 Output, all others Unused. -/
def stMixed : MachineState :=
  { startupState with pinAssignments := fun p =>
      if p = 0 then PIN_INPUT_DIGITAL
      else if p = 1 then PIN_INPUT_DIGITAL_PULLUP
      else if p = 2 then PIN_INPUT_ANALOG
      else if p = 4 then PIN_OUTPUT
      else PIN_UNUSED }
/-- A concrete state for witnesses: auto-ranging enabled. -/
def stAuto : MachineState := { startupState with isAutoRange := true }
/-- The value the scan stores for pin `p`, as a function of the pre-scan
    state: raw digital sample, raw analog sample, inverted pullup sample, or
    the prior stored value for Output / Unused / unnamed roles. -/
def pollNewValue (env : Env) (s : MachineState) (p : Nat) : Int :=
  if s.pinAssignments p = PIN_INPUT_DIGITAL then env.digitalIn p
  else if s.pinAssignments p = PIN_INPUT_ANALOG then env.analogIn p
  else if s.pinAssignments p = PIN_INPUT_DIGITAL_PULLUP then
    (if env.digitalIn p = 0 then 1 else 0)
  else s.pinValues p
/-- The physical writes the scan issues for pin `p`: an Output pin is driven
    HIGH exactly when its stored value is nonzero, all other roles write
    nothing. -/
def pollActs (_env : Env) (s : MachineState) (p : Nat) : List Action :=
  if s.pinAssignments p = PIN_OUTPUT then
    [Action.writePin p (decide (s.pinValues p ≠ 0))]
  else []
/-- One auto-range window update as a pure function of the window pair. -/
def rangeStep (auto : Bool) (mm : ℚ × ℚ) (v : Int) : ℚ × ℚ :=
  if auto then (min mm.1 (v : ℚ), max mm.2 (v : ℚ)) else mm
/-- The raw samples the scan feeds to the auto-range tracker: the analog
    reads of the AnalogInput-assigned pins, in scan order. -/
def analogSamples (env : Env) (s : MachineState) (L : List Nat) : List Int :=
  (L.filter (fun p => decide (s.pinAssignments p = PIN_INPUT_ANALOG))).map env.analogIn
/-- A concrete environment for witnesses: every digital read is HIGH and
    every analog read returns 7. -/
def envHigh : Env where
  digitalIn := fun _ => 1
  analogIn  := fun _ => 7
/-- A startup-like state whose slot 10 is assigned DigitalInput. -/
def stPin10 : MachineState :=
  { startupState with pinAssignments := Function.update startupState.pinAssignments 10 PIN_INPUT_DIGITAL }

/-! ### Helper lemmas -/

lemma ratToIntTrunc_eq_floor (q : ℚ) (h : 0 ≤ q) : ratToIntTrunc q = ⌊q⌋ := by
  unfold ratToIntTrunc
  rw [Int.tdiv_eq_ediv (Rat.num_nonneg.mpr h) (Int.natCast_nonneg q.den),
    Rat.floor_def]

lemma arduinoConstrain_nonneg (x : ℚ) : 0 ≤ arduinoConstrain x 0 255 := by
  unfold arduinoConstrain
  split_ifs <;> linarith

lemma arduinoConstrain_le (x : ℚ) : arduinoConstrain x 0 255 ≤ 255 := by
  unfold arduinoConstrain
  split_ifs <;> linarith

lemma constrainAnalogValue_nonneg (s : MachineState) (v : Int) :
    0 ≤ constrainAnalogValue s v := by
  unfold constrainAnalogValue
  rw [ratToIntTrunc_eq_floor _ (arduinoConstrain_nonneg _)]
  exact Int.floor_nonneg.mpr (arduinoConstrain_nonneg _)

lemma constrainAnalogValue_le (s : MachineState) (v : Int) :
    constrainAnalogValue s v ≤ 255 := by
  unfold constrainAnalogValue
  rw [ratToIntTrunc_eq_floor _ (arduinoConstrain_nonneg _)]
  have h := Int.floor_le_floor (arduinoConstrain_le
    (((v : ℚ) - s.analogMin) / s.analogMax * 255))
  norm_num at h
  exact h

lemma cond_false (n lo hi : Int) (h : ¬(lo ≤ n ∧ n < hi)) :
    inRange n lo hi = false := by
  simp only [inRange, decide_eq_false_iff_not]
  exact h

lemma cond_true (n lo hi : Int) (h : lo ≤ n ∧ n < hi) :
    inRange n lo hi = true := by
  simp only [inRange, decide_eq_true_eq]
  exact h

lemma handleCommand_query (s : MachineState) (p : Int)
    (h1 : 0 ≤ p) (h2 : p < 32) :
    handleCommand s p = (s, getValueOf s p.toNat, []) := by
  simp only [handleCommand]
  rw [if_pos ⟨h1, h2⟩]

lemma hc_assignInput (s : MachineState) (n : Int) (h1 : 32 ≤ n) (h2 : n < 64) :
    handleCommand s n
      = ({ s with pinAssignments :=
            Function.update s.pinAssignments (n - 32).toNat PIN_INPUT_DIGITAL },
         n - 32, [Action.setModeInput (n - 32).toNat]) := by
  have e1 : ¬(0 ≤ n ∧ n < 32) := by omega
  have e2 := cond_true n 32 64 (by omega)
  simp [handleCommand, setPinAssignment, e1, e2, PIN_INPUT_DIGITAL, PIN_INPUT_ANALOG]

lemma hc_assignPullup (s : MachineState) (n : Int) (h1 : 64 ≤ n) (h2 : n < 96) :
    handleCommand s n
      = ({ s with pinAssignments :=
            Function.update s.pinAssignments (n - 64).toNat PIN_INPUT_DIGITAL_PULLUP },
         n - 64, [Action.setModeInputPullup (n - 64).toNat]) := by
  have e1 : ¬(0 ≤ n ∧ n < 32) := by omega
  have e2 := cond_false n 32 64 (by omega)
  have e3 := cond_true n 64 96 (by omega)
  simp [handleCommand, setPinAssignment, e1, e2, e3, PIN_INPUT_DIGITAL,
    PIN_INPUT_ANALOG, PIN_INPUT_DIGITAL_PULLUP]

lemma hc_assignAnalog (s : MachineState) (n : Int) (h1 : 96 ≤ n) (h2 : n < 128) :
    handleCommand s n
      = ({ s with pinAssignments :=
            Function.update s.pinAssignments (n - 96).toNat PIN_INPUT_ANALOG },
         n - 96, [Action.setModeInput (n - 96).toNat]) := by
  have e1 : ¬(0 ≤ n ∧ n < 32) := by omega
  have e2 := cond_false n 32 64 (by omega)
  have e3 := cond_false n 64 96 (by omega)
  have e4 := cond_true n 96 128 (by omega)
  simp [handleCommand, setPinAssignment, e1, e2, e3, e4, PIN_INPUT_ANALOG]

lemma hc_assignOutput (s : MachineState) (n : Int) (h1 : 128 ≤ n) (h2 : n < 160) :
    handleCommand s n
      = ({ s with pinAssignments :=
            Function.update s.pinAssignments (n - 128).toNat PIN_OUTPUT },
         n - 128, [Action.setModeOutput (n - 128).toNat]) := by
  have e1 : ¬(0 ≤ n ∧ n < 32) := by omega
  have e2 := cond_false n 32 64 (by omega)
  have e3 := cond_false n 64 96 (by omega)
  have e4 := cond_false n 96 128 (by omega)
  have e5 := cond_true n 128 160 (by omega)
  simp [handleCommand, setPinAssignment, e1, e2, e3, e4, e5, PIN_INPUT_DIGITAL,
    PIN_INPUT_ANALOG, PIN_INPUT_DIGITAL_PULLUP, PIN_OUTPUT]

lemma hc_writeLow (s : MachineState) (n : Int) (h1 : 160 ≤ n) (h2 : n < 192) :
    handleCommand s n = (s, 0, [Action.writePin (n - 160).toNat false]) := by
  have e1 : ¬(0 ≤ n ∧ n < 32) := by omega
  have e2 := cond_false n 32 64 (by omega)
  have e3 := cond_false n 64 96 (by omega)
  have e4 := cond_false n 96 128 (by omega)
  have e5 := cond_false n 128 160 (by omega)
  have e6 := cond_true n 160 192 (by omega)
  simp only [handleCommand, e1, e2, e3, e4, e5, e6, Bool.false_eq_true,
    if_false, if_true]

lemma hc_writeHigh (s : MachineState) (n : Int) (h1 : 192 ≤ n) (h2 : n < 224) :
    handleCommand s n = (s, 1, [Action.writePin (n - 192).toNat true]) := by
  have e1 : ¬(0 ≤ n ∧ n < 32) := by omega
  have e2 := cond_false n 32 64 (by omega)
  have e3 := cond_false n 64 96 (by omega)
  have e4 := cond_false n 96 128 (by omega)
  have e5 := cond_false n 128 160 (by omega)
  have e6 := cond_false n 160 192 (by omega)
  have e7 := cond_true n 192 224 (by omega)
  simp only [handleCommand, e1, e2, e3, e4, e5, e6, e7, Bool.false_eq_true,
    if_false, if_true]

lemma hc_echo (s : MachineState) :
    handleCommand s 224 = (s, 224, []) := by
  have e1 : ¬((0:Int) ≤ 224 ∧ (224:Int) < 32) := by omega
  have e2 := cond_false 224 32 64 (by omega)
  have e3 := cond_false 224 64 96 (by omega)
  have e4 := cond_false 224 96 128 (by omega)
  have e5 := cond_false 224 128 160 (by omega)
  have e6 := cond_false 224 160 192 (by omega)
  have e7 := cond_false 224 192 224 (by omega)
  simp [handleCommand, e1, e2, e3, e4, e5, e6, e7, CMD_ECHO_INPUT]

lemma hc_unrec (s : MachineState) (n : Int) (h1 : 234 ≤ n) (h2 : n ≤ 239) :
    handleCommand s n = (s, UNRECOGNISED_COMMAND, []) := by
  have e1 : ¬(0 ≤ n ∧ n < 32) := by omega
  have e2 := cond_false n 32 64 (by omega)
  have e3 := cond_false n 64 96 (by omega)
  have e4 := cond_false n 96 128 (by omega)
  have e5 := cond_false n 128 160 (by omega)
  have e6 := cond_false n 160 192 (by omega)
  have e7 := cond_false n 192 224 (by omega)
  have e8 : ¬(n = CMD_ECHO_INPUT) := by simp only [CMD_ECHO_INPUT]; omega
  have e9 : ¬(n = CMD_CLEAR_REQUEST_COUNT) := by
    simp only [CMD_CLEAR_REQUEST_COUNT]; omega
  have e10 : ¬(n = CMD_RETURN_REQUEST_COUNT) := by
    simp only [CMD_RETURN_REQUEST_COUNT]; omega
  have e11 : ¬(n = CMD_CLEAR_LOOP_COUNT) := by
    simp only [CMD_CLEAR_LOOP_COUNT]; omega
  have e12 : ¬(n = CMD_RETURN_LOOP_COUNT) := by
    simp only [CMD_RETURN_LOOP_COUNT]; omega
  have e13 : ¬(n = CMD_CLEAR_QUEUES) := by simp only [CMD_CLEAR_QUEUES]; omega
  have e14 : ¬(n = CMD_RETURN_ANALOG_MIN_RANGE) := by
    simp only [CMD_RETURN_ANALOG_MIN_RANGE]; omega
  have e15 : ¬(n = CMD_RETURN_ANALOG_MAX_RANGE) := by
    simp only [CMD_RETURN_ANALOG_MAX_RANGE]; omega
  have e16 : ¬(n = CMD_DISABLE_AUTORANGE) := by
    simp only [CMD_DISABLE_AUTORANGE]; omega
  have e17 : ¬(n = CMD_ENABLE_AUTORANGE) := by
    simp only [CMD_ENABLE_AUTORANGE]; omega
  have e18 : ¬(240 ≤ n) := by omega
  simp only [handleCommand, e1, e2, e3, e4, e5, e6, e7, e8, e9, e10, e11, e12,
    e13, e14, e15, e16, e17, e18, Bool.false_eq_true, if_false]

lemma hc_ge240 (s : MachineState) (n : Int) (h1 : 240 ≤ n) :
    handleCommand s n = (s, n, []) := by
  have e1 : ¬(0 ≤ n ∧ n < 32) := by omega
  have e2 := cond_false n 32 64 (by omega)
  have e3 := cond_false n 64 96 (by omega)
  have e4 := cond_false n 96 128 (by omega)
  have e5 := cond_false n 128 160 (by omega)
  have e6 := cond_false n 160 192 (by omega)
  have e7 := cond_false n 192 224 (by omega)
  have e8 : ¬(n = CMD_ECHO_INPUT) := by simp only [CMD_ECHO_INPUT]; omega
  have e9 : ¬(n = CMD_CLEAR_REQUEST_COUNT) := by
    simp only [CMD_CLEAR_REQUEST_COUNT]; omega
  have e10 : ¬(n = CMD_RETURN_REQUEST_COUNT) := by
    simp only [CMD_RETURN_REQUEST_COUNT]; omega
  have e11 : ¬(n = CMD_CLEAR_LOOP_COUNT) := by
    simp only [CMD_CLEAR_LOOP_COUNT]; omega
  have e12 : ¬(n = CMD_RETURN_LOOP_COUNT) := by
    simp only [CMD_RETURN_LOOP_COUNT]; omega
  have e13 : ¬(n = CMD_CLEAR_QUEUES) := by simp only [CMD_CLEAR_QUEUES]; omega
  have e14 : ¬(n = CMD_RETURN_ANALOG_MIN_RANGE) := by
    simp only [CMD_RETURN_ANALOG_MIN_RANGE]; omega
  have e15 : ¬(n = CMD_RETURN_ANALOG_MAX_RANGE) := by
    simp only [CMD_RETURN_ANALOG_MAX_RANGE]; omega
  have e16 : ¬(n = CMD_DISABLE_AUTORANGE) := by
    simp only [CMD_DISABLE_AUTORANGE]; omega
  have e17 : ¬(n = CMD_ENABLE_AUTORANGE) := by
    simp only [CMD_ENABLE_AUTORANGE]; omega
  simp only [handleCommand, e1, e2, e3, e4, e5, e6, e7, e8, e9, e10, e11, e12,
    e13, e14, e15, e16, e17, h1, Bool.false_eq_true, if_false, if_true]

lemma hc_disable (s : MachineState) :
    handleCommand s 232 = (resetRange { s with isAutoRange := false }, 0, []) := by
  have e1 : ¬((0:Int) ≤ 232 ∧ (232:Int) < 32) := by omega
  have e2 := cond_false 232 32 64 (by omega)
  have e3 := cond_false 232 64 96 (by omega)
  have e4 := cond_false 232 96 128 (by omega)
  have e5 := cond_false 232 128 160 (by omega)
  have e6 := cond_false 232 160 192 (by omega)
  have e7 := cond_false 232 192 224 (by omega)
  simp [handleCommand, e1, e2, e3, e4, e5, e6, e7, CMD_ECHO_INPUT,
    CMD_CLEAR_REQUEST_COUNT, CMD_RETURN_REQUEST_COUNT, CMD_CLEAR_LOOP_COUNT,
    CMD_RETURN_LOOP_COUNT, CMD_CLEAR_QUEUES, CMD_RETURN_ANALOG_MIN_RANGE,
    CMD_RETURN_ANALOG_MAX_RANGE, CMD_DISABLE_AUTORANGE, CMD_ENABLE_AUTORANGE]

lemma hc_enable (s : MachineState) :
    handleCommand s 233 = (resetRange { s with isAutoRange := true }, 1, []) := by
  have e1 : ¬((0:Int) ≤ 233 ∧ (233:Int) < 32) := by omega
  have e2 := cond_false 233 32 64 (by omega)
  have e3 := cond_false 233 64 96 (by omega)
  have e4 := cond_false 233 96 128 (by omega)
  have e5 := cond_false 233 128 160 (by omega)
  have e6 := cond_false 233 160 192 (by omega)
  have e7 := cond_false 233 192 224 (by omega)
  simp [handleCommand, e1, e2, e3, e4, e5, e6, e7, CMD_ECHO_INPUT,
    CMD_CLEAR_REQUEST_COUNT, CMD_RETURN_REQUEST_COUNT, CMD_CLEAR_LOOP_COUNT,
    CMD_RETURN_LOOP_COUNT, CMD_CLEAR_QUEUES, CMD_RETURN_ANALOG_MIN_RANGE,
    CMD_RETURN_ANALOG_MAX_RANGE, CMD_DISABLE_AUTORANGE, CMD_ENABLE_AUTORANGE]

/-! ### Claims -/

/-- C3: every opcode in 160-191 drives pin `n-160` LOW and returns 0, every
    opcode in 192-223 drives pin `n-192` HIGH and returns 1; in both bands
    the write is issued regardless of the pin's assignment and the machine
    state (in particular the value store) is left unchanged, so the written
    level does not persist into the next polling pass for an Output pin. -/
theorem claim_C3 (s : MachineState) (n : Int) :
    (160 ≤ n → n < 192 →
      handleCommand s n = (s, 0, [Action.writePin (n - 160).toNat false]))
    ∧ (192 ≤ n → n < 224 →
      handleCommand s n = (s, 1, [Action.writePin (n - 192).toNat true]))
    ∧ (160 ≤ n → n < 224 → (handleCommand s n).1 = s) := by
  refine ⟨hc_writeLow s n, hc_writeHigh s n, fun h1 h2 => ?_⟩
  by_cases h : n < 192
  · rw [hc_writeLow s n h1 h]
  · rw [hc_writeHigh s n (by omega) h2]

/-- Witness for C3: opcode 165 writes pin 5 LOW and returns 0 with the state
    untouched; opcode 197 writes pin 5 HIGH and returns 1. -/
theorem claim_C3_witness :
    handleCommand startupState 165
      = (startupState, 0, [Action.writePin ((165 : Int) - 160).toNat false])
    ∧ handleCommand startupState 197
      = (startupState, 1, [Action.writePin ((197 : Int) - 192).toNat true]) :=
  ⟨(claim_C3 startupState 165).1 (by decide) (by decide),
   (claim_C3 startupState 197).2.1 (by decide) (by decide)⟩

/-- C9: opcode 224 echoes itself, opcodes 234-239 return the unrecognised
    command sentinel, and opcodes 240-255 are returned unchanged. -/
theorem claim_C9 (s : MachineState) (n : Int) :
    (handleCommand s 224).2.1 = 224
    ∧ (234 ≤ n → n ≤ 239 → (handleCommand s n).2.1 = UNRECOGNISED_COMMAND)
    ∧ (240 ≤ n → n ≤ 255 → (handleCommand s n).2.1 = n) := by
  refine ⟨?_, fun h1 h2 => ?_, fun h1 h2 => ?_⟩
  · rw [hc_echo s]
  · rw [hc_unrec s n h1 h2]
  · rw [hc_ge240 s n h1]

/-- Witness for C9: opcode 236 yields 254 and opcode 245 yields itself. -/
theorem claim_C9_witness :
    (handleCommand startupState 236).2.1 = UNRECOGNISED_COMMAND
    ∧ (handleCommand startupState 245).2.1 = 245 :=
  ⟨(claim_C9 startupState 236).2.1 (by decide) (by decide),
   (claim_C9 startupState 245).2.2 (by decide) (by decide)⟩

/-- C8: an outbound read on an empty output buffer sends the synthesized
    empty-queue sentinel frame `[249, 0]`; a read on a non-empty buffer sends
    exactly its contents (low byte first, FIFO order); in both cases the
    buffer is left empty when the handler returns. -/
theorem claim_C8 (s : MachineState) :
    (requestData s).1.outputQueue = []
    ∧ (s.outputQueue = [] →
        (requestData s).2 = [lowByte EMPTY_QUEUE, highByte EMPTY_QUEUE]
        ∧ (requestData s).2 = [249, 0])
    ∧ (s.outputQueue ≠ [] → (requestData s).2 = s.outputQueue) := by
  refine ⟨rfl, fun h => ?_, fun h => ?_⟩
  · simp only [requestData, h]
    exact ⟨rfl, rfl⟩
  · have he : s.outputQueue.isEmpty = false := by
      simpa [List.isEmpty_iff] using h
    simp [requestData, he]

/-- Witness for C8: at startup the output buffer is empty, so a read sends
    the sentinel frame; with one byte pending, the read sends that byte. -/
theorem claim_C8_witness :
    (requestData startupState).2 = [249, 0]
    ∧ (requestData { startupState with outputQueue := [42] }).2 = [42] :=
  ⟨((claim_C8 startupState).2.1 rfl).2,
   (claim_C8 { startupState with outputQueue := [42] }).2.2 (by decide)⟩

/-- C6: `constrainAnalogValue` computes the spec's
    `clamp(((value - min) / max) * 255, 0, 255)` (raw `max` as divisor, then
    C float-to-int truncation); with min = 70 and max = 600 a raw sample of
    335 yields 112, whereas the span-divisor variant would yield 127. -/
theorem claim_C6 :
    (∀ (s : MachineState) (v : Int),
      constrainAnalogValue s v
        = ratToIntTrunc (constrainFormulaSpec (v : ℚ) s.analogMin s.analogMax))
    ∧ constrainAnalogValue startupState 335 = 112
    ∧ ratToIntTrunc (constrainFormulaSpan 335 startupState.analogMin
        startupState.analogMax) = 127 := by
  refine ⟨fun s v => rfl, ?_, ?_⟩
  · have hq : (((335 : Int) : ℚ) - startupState.analogMin)
        / startupState.analogMax * 255 = 901 / 8 := by
      show (((335 : Int) : ℚ) - 70) / 600 * 255 = 901 / 8
      push_cast
      norm_num
    have hc : arduinoConstrain (901 / 8 : ℚ) 0 255 = 901 / 8 := by
      unfold arduinoConstrain
      norm_num
    simp only [constrainAnalogValue]
    rw [hq, hc, ratToIntTrunc_eq_floor _ (by norm_num)]
    norm_num
  · have hq : ((335 : ℚ) - startupState.analogMin)
        / (startupState.analogMax - startupState.analogMin) * 255 = 255 / 2 := by
      show ((335 : ℚ) - 70) / (600 - 70) * 255 = 255 / 2
      norm_num
    have hc : arduinoConstrain (255 / 2 : ℚ) 0 255 = 255 / 2 := by
      unfold arduinoConstrain
      norm_num
    simp only [constrainFormulaSpan]
    rw [hq, hc, ratToIntTrunc_eq_floor _ (by norm_num)]
    norm_num


/-! ### Auto-range monotonicity helpers -/

lemma adjustAutoRange_min_le (s : MachineState) (v : Int) :
    (adjustAutoRange s v).analogMin ≤ s.analogMin := by
  unfold adjustAutoRange
  split_ifs <;> simp [min_le_left]

lemma adjustAutoRange_max_ge (s : MachineState) (v : Int) :
    s.analogMax ≤ (adjustAutoRange s v).analogMax := by
  unfold adjustAutoRange
  split_ifs <;> simp [le_max_left]

lemma foldl_adjust_min_le (l : List Int) (s : MachineState) :
    (l.foldl adjustAutoRange s).analogMin ≤ s.analogMin := by
  induction l generalizing s with
  | nil => exact le_refl _
  | cons a t ih => exact le_trans (ih (adjustAutoRange s a)) (adjustAutoRange_min_le s a)

lemma foldl_adjust_max_ge (l : List Int) (s : MachineState) :
    s.analogMax ≤ (l.foldl adjustAutoRange s).analogMax := by
  induction l generalizing s with
  | nil => exact le_refl _
  | cons a t ih => exact le_trans (adjustAutoRange_max_ge s a) (ih (adjustAutoRange s a))



/-- C1: for opcodes 0-31, dispatch renders the queried pin by role:
    digital and pullup inputs return the stored value as is (the pullup
    inversion happened at sample time), analog inputs with constraining
    enabled return the stored value constrained into [0,255], an Unused pin
    yields the sentinel 250 and an Output pin the sentinel 251, both in the
    reserved 240-255 band and distinct from each other. -/
theorem claim_C1 (s : MachineState) (p : Int) (h1 : 0 ≤ p) (h2 : p ≤ 31) :
    (s.pinAssignments p.toNat = PIN_INPUT_DIGITAL
        ∨ s.pinAssignments p.toNat = PIN_INPUT_DIGITAL_PULLUP →
      (handleCommand s p).2.1 = s.pinValues p.toNat)
    ∧ (s.pinAssignments p.toNat = PIN_INPUT_ANALOG →
        s.isConstrainAnalogValue = true →
      (handleCommand s p).2.1 = constrainAnalogValue s (s.pinValues p.toNat)
      ∧ 0 ≤ (handleCommand s p).2.1 ∧ (handleCommand s p).2.1 ≤ 255)
    ∧ (s.pinAssignments p.toNat = PIN_UNUSED →
      (handleCommand s p).2.1 = PIN_UNASSIGNED)
    ∧ (s.pinAssignments p.toNat = PIN_OUTPUT →
      (handleCommand s p).2.1 = PIN_ASSIGNED_AS_OUTPUT)
    ∧ (240 ≤ PIN_UNASSIGNED ∧ PIN_UNASSIGNED ≤ 255
      ∧ 240 ≤ PIN_ASSIGNED_AS_OUTPUT ∧ PIN_ASSIGNED_AS_OUTPUT ≤ 255
      ∧ PIN_UNASSIGNED ≠ PIN_ASSIGNED_AS_OUTPUT) := by
  have hq : (handleCommand s p).2.1 = getValueOf s p.toNat := by
    rw [handleCommand_query s p h1 (by omega)]
  rw [hq]
  refine ⟨fun h => ?_, fun h hc => ?_, fun h => ?_, fun h => ?_, by decide⟩
  · rcases h with h | h <;>
      simp [getValueOf, h, PIN_INPUT_DIGITAL, PIN_INPUT_DIGITAL_PULLUP]
  · have hg : getValueOf s p.toNat = constrainAnalogValue s (s.pinValues p.toNat) := by
      simp [getValueOf, h, hc, PIN_INPUT_DIGITAL, PIN_INPUT_DIGITAL_PULLUP,
        PIN_INPUT_ANALOG]
    rw [hg]
    exact ⟨rfl, constrainAnalogValue_nonneg s _, constrainAnalogValue_le s _⟩
  · simp [getValueOf, h, PIN_INPUT_DIGITAL, PIN_INPUT_DIGITAL_PULLUP,
      PIN_INPUT_ANALOG, PIN_UNUSED]
  · simp [getValueOf, h, PIN_INPUT_DIGITAL, PIN_INPUT_DIGITAL_PULLUP,
      PIN_INPUT_ANALOG, PIN_UNUSED, PIN_OUTPUT]

/-- Witness for C1: in `stMixed`, querying pin 0 returns its stored value,
    querying pin 3 returns the Unused sentinel, querying pin 4 the
    Output sentinel. -/
theorem claim_C1_witness :
    (handleCommand stMixed 0).2.1 = stMixed.pinValues (0 : Int).toNat
    ∧ (handleCommand stMixed 3).2.1 = PIN_UNASSIGNED
    ∧ (handleCommand stMixed 4).2.1 = PIN_ASSIGNED_AS_OUTPUT :=
  ⟨(claim_C1 stMixed 0 (by decide) (by decide)).1 (Or.inl (by decide)),
   (claim_C1 stMixed 3 (by decide) (by decide)).2.2.1 (by decide),
   (claim_C1 stMixed 4 (by decide) (by decide)).2.2.2.1 (by decide)⟩

/-- C2: opcode bands 32-63 / 64-95 / 96-127 / 128-159 assign pin `n - base`
    the DigitalInput / DigitalInputPullup / AnalogInput / Output role,
    immediately issue the matching `pinMode` reconfiguration (input,
    input, input-with-pullup, output respectively), and return `n - base`. -/
theorem claim_C2 (s : MachineState) (n : Int) :
    (32 ≤ n → n < 64 → handleCommand s n
      = ({ s with pinAssignments :=
            Function.update s.pinAssignments (n - 32).toNat PIN_INPUT_DIGITAL },
         n - 32, [Action.setModeInput (n - 32).toNat]))
    ∧ (64 ≤ n → n < 96 → handleCommand s n
      = ({ s with pinAssignments :=
            Function.update s.pinAssignments (n - 64).toNat PIN_INPUT_DIGITAL_PULLUP },
         n - 64, [Action.setModeInputPullup (n - 64).toNat]))
    ∧ (96 ≤ n → n < 128 → handleCommand s n
      = ({ s with pinAssignments :=
            Function.update s.pinAssignments (n - 96).toNat PIN_INPUT_ANALOG },
         n - 96, [Action.setModeInput (n - 96).toNat]))
    ∧ (128 ≤ n → n < 160 → handleCommand s n
      = ({ s with pinAssignments :=
            Function.update s.pinAssignments (n - 128).toNat PIN_OUTPUT },
         n - 128, [Action.setModeOutput (n - 128).toNat])) :=
  ⟨hc_assignInput s n, hc_assignPullup s n, hc_assignAnalog s n, hc_assignOutput s n⟩

/-- Witness for C2: opcode 42 assigns pin 10 as DigitalInput and returns 10;
    opcode 135 assigns pin 7 as Output and returns 7. -/
theorem claim_C2_witness :
    handleCommand startupState 42 = ({ startupState with pinAssignments := Function.update startupState.pinAssignments 10 PIN_INPUT_DIGITAL }, 10, [Action.setModeInput 10])
    ∧ handleCommand startupState 135 = ({ startupState with pinAssignments := Function.update startupState.pinAssignments 7 PIN_OUTPUT }, 7, [Action.setModeOutput 7]) :=
  ⟨(claim_C2 startupState 42).1 (by decide) (by decide),
   (claim_C2 startupState 135).2.2.2 (by decide) (by decide)⟩

/-- C7: `adjustAutoRange` widens the window (`min := min min v`,
    `max := max max v`) exactly when auto-ranging is enabled and is a no-op
    otherwise; over any sample sequence the minimum is non-increasing and
    the maximum non-decreasing; opcode 232 disables auto-ranging and resets
    the window to the defaults returning 0, opcode 233 enables it and resets
    the window returning 1, in both cases regardless of prior drift. -/
theorem claim_C7 (s : MachineState) (v : Int) (l : List Int) :
    (s.isAutoRange = true →
      adjustAutoRange s v
        = { s with analogMin := min s.analogMin (v : ℚ),
                   analogMax := max s.analogMax (v : ℚ) })
    ∧ (s.isAutoRange = false → adjustAutoRange s v = s)
    ∧ (l.foldl adjustAutoRange s).analogMin ≤ s.analogMin
    ∧ s.analogMax ≤ (l.foldl adjustAutoRange s).analogMax
    ∧ handleCommand s 232 = (resetRange { s with isAutoRange := false }, 0, [])
    ∧ handleCommand s 233 = (resetRange { s with isAutoRange := true }, 1, [])
    ∧ (handleCommand s 232).1.analogMin = analogMinDefault
    ∧ (handleCommand s 232).1.analogMax = analogMaxDefault
    ∧ (handleCommand s 232).1.isAutoRange = false
    ∧ (handleCommand s 233).1.analogMin = analogMinDefault
    ∧ (handleCommand s 233).1.analogMax = analogMaxDefault
    ∧ (handleCommand s 233).1.isAutoRange = true := by
  refine ⟨fun h => ?_, fun h => ?_, foldl_adjust_min_le l s, foldl_adjust_max_ge l s,
    hc_disable s, hc_enable s, ?_, ?_, ?_, ?_, ?_, ?_⟩
  · unfold adjustAutoRange
    rw [if_pos h]
  · unfold adjustAutoRange
    rw [if_neg (by simp [h])]
  all_goals first
    | (rw [hc_disable s]; rfl)
    | (rw [hc_enable s]; rfl)

/-- Witness for C7: with auto-ranging enabled one observation widens the
    window as specified; with it disabled the observation is a no-op. -/
theorem claim_C7_witness :
    adjustAutoRange stAuto 42 = { stAuto with analogMin := min stAuto.analogMin ((42 : Int) : ℚ), analogMax := max stAuto.analogMax ((42 : Int) : ℚ) }
    ∧ adjustAutoRange startupState 42 = startupState :=
  ⟨(claim_C7 stAuto 42 []).1 rfl, (claim_C7 startupState 42 []).2.1 rfl⟩

/-- C10: the receive handler enqueues each inbound byte into the output
    queue as well as the input queue; after a 1-byte receive into empty
    buffers no command is dispatched, both buffers hold exactly that byte,
    and a request issued now transmits that single raw byte (one byte, so
    neither the 2-byte empty-queue sentinel frame nor a 2-byte reply). -/
theorem claim_C10 (s : MachineState) (b : Nat)
    (h1 : s.inputQueue = []) (h2 : s.outputQueue = []) :
    (receiveData s [b]).1.inputQueue = [b]
    ∧ (receiveData s [b]).1.outputQueue = [b]
    ∧ (receiveData s [b]).2 = []
    ∧ (requestData (receiveData s [b]).1).2 = [b]
    ∧ (requestData (receiveData s [b]).1).2.length = 1 := by
  have hs : receiveData s [b] = ({ s with inputQueue := [b], outputQueue := [b] }, []) := by
    simp [receiveData, receiveBytes, enqueue, h1, h2]
  rw [hs]
  refine ⟨rfl, rfl, rfl, ?_, ?_⟩
  · simp [requestData]
  · simp [requestData]

/-- Witness for C10: from the startup state, receiving the single byte 77 and
    then serving a request transmits exactly `[77]`. -/
theorem claim_C10_witness :
    (receiveData startupState [77]).1.outputQueue = [77]
    ∧ (requestData (receiveData startupState [77]).1).2 = [77] :=
  ⟨(claim_C10 startupState 77 rfl rfl).2.1,
   (claim_C10 startupState 77 rfl rfl).2.2.2.1⟩

/-! ### Startup state characterization -/

lemma foldl_update_range (f : Nat → Int) (v : Int) (n p : Nat) :
    ((List.range n).foldl (fun g i => Function.update g i v) f) p
      = if p < n then v else f p := by
  induction n with
  | zero => simp
  | succ m ih =>
    rw [List.range_succ, List.foldl_append]
    simp only [List.foldl_cons, List.foldl_nil]
    by_cases hp : p = m
    · subst hp
      rw [Function.update_same]
      simp
    · rw [Function.update_noteq hp, ih]
      by_cases h2 : p < m
      · rw [if_pos h2, if_pos (by omega)]
      · rw [if_neg h2, if_neg (by omega)]

lemma startupState_assignments (p : Nat) :
    startupState.pinAssignments p = if p < pinsAssigned then PIN_UNUSED else 0 := by
  have h : startupState.pinAssignments
      = (List.range pinsAssigned).foldl
          (fun g i => Function.update g i PIN_UNUSED) (fun _ => 0) := rfl
  rw [h, foldl_update_range]

lemma startupState_values (p : Nat) : startupState.pinValues p = 0 := by
  have h : startupState.pinValues
      = (List.range pinsAssigned).foldl
          (fun g i => Function.update g i INIT_VALUE) (fun _ => 0) := rfl
  rw [h, foldl_update_range]
  simp [INIT_VALUE]

/-- Counterexample to C4 as stated: `resetPinAssignments` only defaults the
    first `pinsAssigned = 10` slots, so at startup slot 10 of the 32-slot bank
    is not `PIN_UNUSED` (it holds the zero-initialized value 0) and a value
    query of pin 10 returns the Output-assigned sentinel 251 rather than the
    Unused sentinel 250. -/
theorem claim_C4_counterexample :
    startupState.pinAssignments 10 ≠ PIN_UNUSED
    ∧ (handleCommand startupState 10).2.1 = PIN_ASSIGNED_AS_OUTPUT
    ∧ PIN_ASSIGNED_AS_OUTPUT ≠ PIN_UNASSIGNED := by
  decide

/-- C4 (amended): at startup the first `pinsAssigned = 10` slots are Unused
    (a value query returns the Unused sentinel 250); slots 10-31 keep the
    zero-initialized role 0, which is no named role, and a value query of
    them returns the Output-assigned sentinel 251; all 32 stored values are
    zero and the analog range holds its fixed defaults. -/
theorem claim_C4 (p : Nat) :
    (p < pinsAssigned →
      startupState.pinAssignments p = PIN_UNUSED
      ∧ (handleCommand startupState (p : Int)).2.1 = PIN_UNASSIGNED)
    ∧ (pinsAssigned ≤ p → p < 32 →
      startupState.pinAssignments p = 0
      ∧ (handleCommand startupState (p : Int)).2.1 = PIN_ASSIGNED_AS_OUTPUT)
    ∧ startupState.pinValues p = 0
    ∧ startupState.analogMin = analogMinDefault
    ∧ startupState.analogMax = analogMaxDefault := by
  have hcast : ((p : Int)).toNat = p := Int.toNat_natCast p
  refine ⟨fun h => ?_, fun h1 h2 => ?_, startupState_values p, rfl, rfl⟩
  · have ha : startupState.pinAssignments p = PIN_UNUSED := by
      rw [startupState_assignments, if_pos h]
    have hq : (handleCommand startupState (p : Int)).2.1
        = getValueOf startupState ((p : Int)).toNat := by
      rw [handleCommand_query startupState (p : Int) (by omega) (by
        simp only [pinsAssigned] at h
        omega)]
    refine ⟨ha, ?_⟩
    rw [hq, hcast]
    simp [getValueOf, ha, PIN_INPUT_DIGITAL, PIN_INPUT_DIGITAL_PULLUP,
      PIN_INPUT_ANALOG, PIN_UNUSED]
  · have ha : startupState.pinAssignments p = 0 := by
      rw [startupState_assignments, if_neg (by omega)]
    have hq : (handleCommand startupState (p : Int)).2.1
        = getValueOf startupState ((p : Int)).toNat := by
      rw [handleCommand_query startupState (p : Int) (by omega) (by omega)]
    refine ⟨ha, ?_⟩
    rw [hq, hcast]
    simp [getValueOf, ha, PIN_INPUT_DIGITAL, PIN_INPUT_DIGITAL_PULLUP,
      PIN_INPUT_ANALOG, PIN_UNUSED]

/-- Witness for C4 (amended): at startup, querying pin 3 yields the Unused
    sentinel while querying pin 20 yields the Output-assigned sentinel. -/
theorem claim_C4_witness :
    (startupState.pinAssignments 3 = PIN_UNUSED
      ∧ (handleCommand startupState ((3 : Nat) : Int)).2.1 = PIN_UNASSIGNED)
    ∧ (startupState.pinAssignments 20 = 0
      ∧ (handleCommand startupState ((20 : Nat) : Int)).2.1 = PIN_ASSIGNED_AS_OUTPUT) :=
  ⟨(claim_C4 3).1 (by decide), (claim_C4 20).2.1 (by decide) (by decide)⟩

/-! ### Polling loop characterization -/







lemma pollOnePin_fst_pinAssignments (env : Env) (x : MachineState × List Action)
    (q : Nat) : (pollOnePin env x q).1.pinAssignments = x.1.pinAssignments := by
  simp only [pollOnePin, adjustAutoRange]
  split_ifs <;> rfl

lemma pollOnePin_fst_isAutoRange (env : Env) (x : MachineState × List Action)
    (q : Nat) : (pollOnePin env x q).1.isAutoRange = x.1.isAutoRange := by
  simp only [pollOnePin, adjustAutoRange]
  split_ifs <;> rfl

lemma pollOnePin_fst_loopCount (env : Env) (x : MachineState × List Action)
    (q : Nat) : (pollOnePin env x q).1.loopCount = x.1.loopCount := by
  simp only [pollOnePin, adjustAutoRange]
  split_ifs <;> rfl

lemma pollOnePin_pinValues_ne (env : Env) (x : MachineState × List Action)
    (q p : Nat) (h : p ≠ q) :
    (pollOnePin env x q).1.pinValues p = x.1.pinValues p := by
  simp only [pollOnePin, adjustAutoRange]
  split_ifs <;> simp [Function.update_noteq h]

lemma pollOnePin_pinValues_self (env : Env) (x : MachineState × List Action)
    (q : Nat) :
    (pollOnePin env x q).1.pinValues q = pollNewValue env x.1 q := by
  simp only [pollOnePin, pollNewValue, adjustAutoRange]
  split_ifs <;> simp [Function.update_same]

lemma pollOnePin_snd (env : Env) (x : MachineState × List Action) (q : Nat) :
    (pollOnePin env x q).2 = x.2 ++ pollActs env x.1 q := by
  simp only [pollOnePin, pollActs, adjustAutoRange]
  split_ifs <;>
    simp_all [PIN_INPUT_DIGITAL, PIN_INPUT_ANALOG, PIN_INPUT_DIGITAL_PULLUP,
      PIN_OUTPUT]

lemma pollOnePin_range (env : Env) (x : MachineState × List Action) (q : Nat) :
    ((pollOnePin env x q).1.analogMin, (pollOnePin env x q).1.analogMax)
      = (if x.1.pinAssignments q = PIN_INPUT_ANALOG
         then rangeStep x.1.isAutoRange (x.1.analogMin, x.1.analogMax)
                (env.analogIn q)
         else (x.1.analogMin, x.1.analogMax)) := by
  simp only [pollOnePin, rangeStep, adjustAutoRange]
  split_ifs <;>
    simp_all [PIN_INPUT_DIGITAL, PIN_INPUT_ANALOG, PIN_INPUT_DIGITAL_PULLUP,
      PIN_OUTPUT]

lemma pollFold_fst_pinAssignments (env : Env) (L : List Nat)
    (x : MachineState × List Action) :
    ((L.foldl (pollOnePin env) x).1).pinAssignments = x.1.pinAssignments := by
  induction L generalizing x with
  | nil => rfl
  | cons q t ih => rw [List.foldl_cons, ih, pollOnePin_fst_pinAssignments]

lemma pollFold_fst_isAutoRange (env : Env) (L : List Nat)
    (x : MachineState × List Action) :
    ((L.foldl (pollOnePin env) x).1).isAutoRange = x.1.isAutoRange := by
  induction L generalizing x with
  | nil => rfl
  | cons q t ih => rw [List.foldl_cons, ih, pollOnePin_fst_isAutoRange]

lemma pollFold_fst_loopCount (env : Env) (L : List Nat)
    (x : MachineState × List Action) :
    ((L.foldl (pollOnePin env) x).1).loopCount = x.1.loopCount := by
  induction L generalizing x with
  | nil => rfl
  | cons q t ih => rw [List.foldl_cons, ih, pollOnePin_fst_loopCount]

lemma pollFold_pinValues (env : Env) (L : List Nat)
    (x : MachineState × List Action) (p : Nat) (hnd : L.Nodup) :
    ((L.foldl (pollOnePin env) x).1).pinValues p
      = if p ∈ L then pollNewValue env x.1 p else x.1.pinValues p := by
  induction L generalizing x with
  | nil => simp
  | cons q t ih =>
    have hq : q ∉ t := (List.nodup_cons.mp hnd).1
    have ht : t.Nodup := (List.nodup_cons.mp hnd).2
    rw [List.foldl_cons, ih (pollOnePin env x q) ht]
    by_cases hpq : p = q
    · subst hpq
      rw [if_neg hq, if_pos (List.mem_cons_self p t)]
      exact pollOnePin_pinValues_self env x p
    · have hv := pollOnePin_pinValues_ne env x q p hpq
      have hA := pollOnePin_fst_pinAssignments env x q
      have hpnv : pollNewValue env (pollOnePin env x q).1 p
          = pollNewValue env x.1 p := by
        unfold pollNewValue
        rw [hA, hv]
      rw [hpnv, hv]
      by_cases hm : p ∈ t
      · simp [hm, List.mem_cons]
      · simp [hm, List.mem_cons, hpq]

lemma pollFold_snd (env : Env) (L : List Nat)
    (x : MachineState × List Action) (hnd : L.Nodup) :
    (L.foldl (pollOnePin env) x).2
      = x.2 ++ (L.map (pollActs env x.1)).flatten := by
  induction L generalizing x with
  | nil => simp
  | cons q t ih =>
    have hq : q ∉ t := (List.nodup_cons.mp hnd).1
    have ht : t.Nodup := (List.nodup_cons.mp hnd).2
    rw [List.foldl_cons, ih (pollOnePin env x q) ht, pollOnePin_snd]
    have hmap : t.map (pollActs env (pollOnePin env x q).1)
        = t.map (pollActs env x.1) := by
      apply List.map_congr_left
      intro a ha
      have hne : a ≠ q := fun hc => hq (hc ▸ ha)
      unfold pollActs
      rw [pollOnePin_fst_pinAssignments, pollOnePin_pinValues_ne env x q a hne]
    rw [hmap, List.map_cons, List.flatten_cons, List.append_assoc]

lemma pollFold_range (env : Env) (L : List Nat)
    (x : MachineState × List Action) :
    (((L.foldl (pollOnePin env) x).1).analogMin,
     ((L.foldl (pollOnePin env) x).1).analogMax)
      = (analogSamples env x.1 L).foldl (rangeStep x.1.isAutoRange)
          (x.1.analogMin, x.1.analogMax) := by
  induction L generalizing x with
  | nil => simp [analogSamples]
  | cons q t ih =>
    rw [List.foldl_cons, ih (pollOnePin env x q)]
    have hA := pollOnePin_fst_pinAssignments env x q
    have hAuto := pollOnePin_fst_isAutoRange env x q
    have hsam : analogSamples env (pollOnePin env x q).1 t
        = analogSamples env x.1 t := by
      unfold analogSamples
      rw [hA]
    rw [hsam, hAuto]
    have hr := pollOnePin_range env x q
    by_cases hc : x.1.pinAssignments q = PIN_INPUT_ANALOG
    · rw [if_pos hc] at hr
      have hS : analogSamples env x.1 (q :: t)
          = env.analogIn q :: analogSamples env x.1 t := by
        unfold analogSamples
        simp [List.filter_cons, hc]
      rw [hr, hS, List.foldl_cons]
    · rw [if_neg hc] at hr
      have hS : analogSamples env x.1 (q :: t) = analogSamples env x.1 t := by
        unfold analogSamples
        simp [List.filter_cons, hc]
      rw [hr, hS]

/-- Counterexample to C5 as stated: the scan loop runs only over pins
    `0 .. pinsAssigned-1 = 0..9`, so a pin of the 32-slot bank with index 10
    assigned DigitalInput is not sampled: with the physical input HIGH its
    stored value stays 0 after a full polling pass. -/
theorem claim_C5_counterexample :
    stPin10.pinAssignments 10 = PIN_INPUT_DIGITAL
    ∧ envHigh.digitalIn 10 = 1
    ∧ (loopStep envHigh stPin10).1.pinValues 10 = 0
    ∧ (0 : Int) ≠ 1 := by
  decide

/-- C5 (amended): each polling pass covers exactly the pins below
    `pinsAssigned = 10` (not the whole 32-slot bank): for those pins a
    DigitalInput stores the raw sample, a pullup input the logical inverse,
    an AnalogInput the raw unconstrained sample, an Output pin keeps its
    stored value and is driven HIGH exactly when that value is nonzero, an
    Unused pin is untouched with no action; the analog samples of the scan
    feed the auto-range tracker in order, and the loop counter increments
    exactly once per invocation regardless of pin count. -/
theorem claim_C5 (env : Env) (s : MachineState) (p : Nat)
    (hp : p < pinsAssigned) :
    (loopStep env s).1.loopCount = s.loopCount + 1
    ∧ (s.pinAssignments p = PIN_INPUT_DIGITAL →
        (loopStep env s).1.pinValues p = env.digitalIn p)
    ∧ (s.pinAssignments p = PIN_INPUT_DIGITAL_PULLUP →
        (loopStep env s).1.pinValues p = (if env.digitalIn p = 0 then 1 else 0))
    ∧ (s.pinAssignments p = PIN_INPUT_ANALOG →
        (loopStep env s).1.pinValues p = env.analogIn p)
    ∧ (s.pinAssignments p = PIN_OUTPUT →
        (loopStep env s).1.pinValues p = s.pinValues p
        ∧ pollActs env s p = [Action.writePin p (decide (s.pinValues p ≠ 0))])
    ∧ (s.pinAssignments p = PIN_UNUSED →
        (loopStep env s).1.pinValues p = s.pinValues p ∧ pollActs env s p = [])
    ∧ (loopStep env s).2 = ((List.range pinsAssigned).map (pollActs env s)).flatten
    ∧ ((loopStep env s).1.analogMin, (loopStep env s).1.analogMax)
        = (analogSamples env s (List.range pinsAssigned)).foldl
            (rangeStep s.isAutoRange) (s.analogMin, s.analogMax) := by
  have hpv : (loopStep env s).1.pinValues p = pollNewValue env s p := by
    show ((List.range pinsAssigned).foldl (pollOnePin env) (s, [])).1.pinValues p = _
    rw [pollFold_pinValues env (List.range pinsAssigned) (s, []) p
      (List.nodup_range pinsAssigned)]
    rw [if_pos (List.mem_range.mpr hp)]
  have hcnt : (loopStep env s).1.loopCount = s.loopCount + 1 := by
    show ((List.range pinsAssigned).foldl (pollOnePin env) (s, [])).1.loopCount + 1
        = s.loopCount + 1
    rw [pollFold_fst_loopCount]
  have hacts : (loopStep env s).2
      = ((List.range pinsAssigned).map (pollActs env s)).flatten := by
    show ((List.range pinsAssigned).foldl (pollOnePin env) (s, [])).2 = _
    rw [pollFold_snd env (List.range pinsAssigned) (s, [])
      (List.nodup_range pinsAssigned)]
    simp
  have hrange : ((loopStep env s).1.analogMin, (loopStep env s).1.analogMax)
      = (analogSamples env s (List.range pinsAssigned)).foldl
          (rangeStep s.isAutoRange) (s.analogMin, s.analogMax) := by
    show (((List.range pinsAssigned).foldl (pollOnePin env) (s, [])).1.analogMin,
          ((List.range pinsAssigned).foldl (pollOnePin env) (s, [])).1.analogMax) = _
    exact pollFold_range env (List.range pinsAssigned) (s, [])
  refine ⟨hcnt, fun h => ?_, fun h => ?_, fun h => ?_, fun h => ?_, fun h => ?_,
    hacts, hrange⟩
  · rw [hpv]
    simp [pollNewValue, h, PIN_INPUT_DIGITAL]
  · rw [hpv]
    simp [pollNewValue, h, PIN_INPUT_DIGITAL, PIN_INPUT_ANALOG,
      PIN_INPUT_DIGITAL_PULLUP]
  · rw [hpv]
    simp [pollNewValue, h, PIN_INPUT_DIGITAL, PIN_INPUT_ANALOG]
  · refine ⟨?_, ?_⟩
    · rw [hpv]
      simp [pollNewValue, h, PIN_INPUT_DIGITAL, PIN_INPUT_ANALOG,
        PIN_INPUT_DIGITAL_PULLUP, PIN_OUTPUT]
    · simp [pollActs, h]
  · refine ⟨?_, ?_⟩
    · rw [hpv]
      simp [pollNewValue, h, PIN_INPUT_DIGITAL, PIN_INPUT_ANALOG,
        PIN_INPUT_DIGITAL_PULLUP, PIN_UNUSED]
    · simp [pollActs, h, PIN_OUTPUT, PIN_UNUSED]

/-- Witness for C5 (amended): in `stMixed` under `envHigh`, one polling pass
    increments the loop counter once, and the Output-assigned pin 4 keeps its
    stored value and is driven according to it. -/
theorem claim_C5_witness :
    (loopStep envHigh stMixed).1.loopCount = stMixed.loopCount + 1
    ∧ ((loopStep envHigh stMixed).1.pinValues 4 = stMixed.pinValues 4
      ∧ pollActs envHigh stMixed 4
          = [Action.writePin 4 (decide (stMixed.pinValues 4 ≠ 0))]) :=
  ⟨(claim_C5 envHigh stMixed 4 (by decide)).1,
   (claim_C5 envHigh stMixed 4 (by decide)).2.2.2.2.1 (by decide)⟩

end I2cSlave
